import Mathlib

/- Shallow embedding of the retrosheet play descriptor parser
   (src/retrosheetParser.py).  Python strings are modelled as lists of
   characters and Python exceptions as `Except String`.  Regular
   expression guards from the source are modelled as decidable
   character-list predicates; each definition mirrors one Python
   function or regex of the source and keeps its name where possible. -/

deriving instance DecidableEq for Except

namespace Retrosheet

abbrev Str := List Char

/-- Paren-depth delta of one character: `+1` on a left paren, `-1` on a
right paren, `0` otherwise. -/
def parenDelta (c : Char) : Int :=
  if c = '(' then 1 else if c = ')' then -1 else 0

/-- Final paren depth of a string (sum of all deltas). -/
def depthEnd (s : Str) : Int := (s.map parenDelta).sum

/-- Whether the running paren depth, started at `d`, becomes negative at
some point of the left-to-right scan. -/
def goesNeg : Str → Int → Bool
  | [], _ => false
  | c :: cs, d =>
    if d + parenDelta c < 0 then true else goesNeg cs (d + parenDelta c)

/-- The preliminary `re.sub` of `split_sep_rspct_paren`: remove one
separator character at the very start and one at the very end. -/
def stripSeps (sep : Char → Bool) (s : Str) : Str :=
  let s1 := match s with
    | [] => []
    | c :: rest => if sep c then rest else c :: rest
  match s1.getLast? with
  | some c => if sep c then s1.dropLast else s1
  | none => s1

/-- The scanning loop of `split_sep_rspct_paren` (lines 96-113 of the
source): split at separator characters seen at paren depth zero, the
separator staying at the head of the following segment; fail with
`Syntax error` when the depth goes negative or ends positive. -/
def scanSplit (sep : Char → Bool) : Str → Int → Str → Except String (List Str)
  | [], d, cur => if d > 0 then .error "Syntax error" else .ok [cur.reverse]
  | c :: cs, d, cur =>
    if c = '(' then scanSplit sep cs (d + 1) (c :: cur)
    else if c = ')' then
      if d - 1 < 0 then .error "Syntax error"
      else scanSplit sep cs (d - 1) (c :: cur)
    else if sep c ∧ d = 0 then
      match scanSplit sep cs d [c] with
      | .error e => .error e
      | .ok r => .ok (cur.reverse :: r)
    else scanSplit sep cs d (c :: cur)

/-- `split_sep_rspct_paren`: strip one leading and one trailing
separator, then split on separators while respecting balanced parens. -/
def split_sep_rspct_paren (sep : Char → Bool) (sentence : Str) :
    Except String (List Str) :=
  scanSplit sep (stripSeps sep sentence) 0 []

/-- The scanning loop of `_event_splitter` (lines 133-157): split when
the previous character closed a bracket at depth zero and the current
character is not a paren; same `Syntax error` conditions. -/
def eventScan : Str → Int → Bool → Str → Except String (List Str)
  | [], d, _, cur => if d > 0 then .error "Syntax error" else .ok [cur.reverse]
  | c :: cs, d, prevRP, cur =>
    if c = '(' then eventScan cs (d + 1) false (c :: cur)
    else if c = ')' then
      if d - 1 < 0 then .error "Syntax error"
      else eventScan cs (d - 1) true (c :: cur)
    else if prevRP ∧ d = 0 then
      match eventScan cs d false [c] with
      | .error e => .error e
      | .ok r => .ok (cur.reverse :: r)
    else eventScan cs d false (c :: cur)

/-- `_event_splitter`: split upon reaching a balanced closing paren when
the next character is not an opening paren. -/
def _event_splitter (sentence : Str) : Except String (List Str) :=
  eventScan sentence 0 false []

/-- Python `str.strip(c)`: drop every copy of `c` from both ends. -/
def stripCharBoth (c : Char) (s : Str) : Str :=
  ((s.dropWhile (· = c)).reverse.dropWhile (· = c)).reverse

/-- `_subevent_splitter`: split an event on `+` (respecting parens),
split each chunk with `_event_splitter`, and strip leftover `+`. -/
def _subevent_splitter (event : Str) : Except String (List Str) := do
  let splits ← split_sep_rspct_paren (fun c => c = '+') event
  let parts ← splits.mapM _event_splitter
  return (parts.flatten.map (stripCharBoth '+'))

/-- Result of `_playSplitter`: primary event, modifiers, advances. -/
structure PlaySplit where
  event : Str
  mods : List Str
  advs : List Str
deriving DecidableEq

/-- Python `re.split(";", s)`: cut at every semicolon, keeping empty
pieces. -/
def splitSemi : Str → List Str
  | [] => [[]]
  | c :: rest =>
    if c = ';' then [] :: splitSemi rest
    else
      match splitSemi rest with
      | r :: rs => (c :: r) :: rs
      | [] => [[c]]

/-- Remove a single leading slash (the `re.sub("^\\/","",m)` of the
source). -/
def dropLeadSlash : Str → Str
  | '/' :: rest => rest
  | s => s

/-- `_playSplitter` (lines 181-209): split a play string on `/` and `.`
into the event, the modifiers and the advances clause. -/
def _playSplitter (play : Str) : Except String PlaySplit :=
  match split_sep_rspct_paren (fun c => c = '/' ∨ c = '.') play with
  | .error e => .error e
  | .ok l =>
    let event := l.headD []
    let last := l.getLastD []
    if last.headD ' ' = '.' ∧ last ≠ [] then
      .ok ⟨event, ((l.drop 1).dropLast).map dropLeadSlash,
           splitSemi (stripCharBoth '.' last)⟩
    else
      .ok ⟨event, (l.drop 1).map dropLeadSlash, []⟩

/-! ## The sub-event classifier `_subeventParser` (lines 211-336)

Each regex of the Python rule chain is modelled by one decidable guard
below, in the same order.  `re.match` anchors at the start only, so
prefix guards inspect just the needed leading characters. -/

/-- The character class `[1-9]`. -/
def isDigit19 (c : Char) : Bool := '1' ≤ c ∧ c ≤ '9'

/-- The character class `[0-9]`. -/
def isDigit09 (c : Char) : Bool := '0' ≤ c ∧ c ≤ '9'

/-- Rule 1 guard, `[1-9]+(\([1-3B]\))?$`: one or more digits, an
optional bracketed base, end of string.  Returns `none` on no match,
`some none` when there is no bracketed base, `some (some b)` for the
bracketed base `b`. -/
def matchOutFull (s : Str) : Option (Option Char) :=
  let ds := s.takeWhile isDigit19
  if ds = [] then none
  else
    match s.drop ds.length with
    | [] => some none
    | [a, b, c] =>
      if a = '(' ∧ (b = '1' ∨ b = '2' ∨ b = '3' ∨ b = 'B') ∧ c = ')' then
        some (some b)
      else none
    | _ => none

/-- An adjacent pair `E` + digit `[1-9]` occurring before any newline
(the `.*E[1-9]` tail of rule 2; `.` does not cross newlines). -/
def hasEdigitNoNL : Str → Bool
  | a :: b :: rest =>
    if a = '\n' then false
    else if a = 'E' ∧ isDigit19 b then true
    else hasEdigitNoNL (b :: rest)
  | _ => false

/-- Rule 2 guard, `[1-9]+(\([1-3B]\))?.*E[1-9]`: starts with a digit and
an `E`+digit pair follows (the optional pieces are absorbed by `.*`). -/
def matchOutError : Str → Bool
  | c :: rest => isDigit19 c ∧ hasEdigitNoNL rest
  | [] => false

/-- Guard `FC`. -/
def guardFC : Str → Bool
  | a :: b :: _ => a = 'F' ∧ b = 'C'
  | _ => false

/-- Guard `C$` (exactly the one-character string `C`). -/
def guardConly : Str → Bool
  | [a] => a = 'C'
  | _ => false

/-- Guard `NP`. -/
def guardNP : Str → Bool
  | a :: b :: _ => a = 'N' ∧ b = 'P'
  | _ => false

/-- Guard `K`. -/
def guardK : Str → Bool
  | a :: _ => a = 'K'
  | _ => false

/-- Guard `H[^P]`: an `H` followed by at least one character that is
not `P`.  The one-character string `H` does not match. -/
def guardHnotP : Str → Bool
  | a :: b :: _ => a = 'H' ∧ b ≠ 'P'
  | _ => false

/-- Guard `HP`. -/
def guardHP : Str → Bool
  | a :: b :: _ => a = 'H' ∧ b = 'P'
  | _ => false

/-- Guard `S[1-9]*$`. -/
def guardS : Str → Bool
  | a :: rest => a = 'S' ∧ rest.all isDigit19
  | [] => false

/-- Guard `D[1-9]*$`. -/
def guardD : Str → Bool
  | a :: rest => a = 'D' ∧ rest.all isDigit19
  | [] => false

/-- Guard `DGR`. -/
def guardDGR : Str → Bool
  | a :: b :: c :: _ => a = 'D' ∧ b = 'G' ∧ c = 'R'
  | _ => false

/-- Guard `T[1-9]*$`. -/
def guardT : Str → Bool
  | a :: rest => a = 'T' ∧ rest.all isDigit19
  | [] => false

/-- Guard `CS[2-3H]`. -/
def guardCS : Str → Bool
  | a :: b :: c :: _ => a = 'C' ∧ b = 'S' ∧ (c = '2' ∨ c = '3' ∨ c = 'H')
  | _ => false

/-- `re.findall('CS[2-3H]', s)`: the stolen-into bases of every
non-overlapping `CS` token occurrence. -/
def findCS : Str → List Char
  | a :: b :: c :: rest =>
    if a = 'C' ∧ b = 'S' ∧ (c = '2' ∨ c = '3' ∨ c = 'H') then
      c :: findCS rest
    else findCS (b :: c :: rest)
  | _ => []

/-- The base a runner was coming from: `H → 3`, `3 → 2`, `2 → 1` (the
fallback is unreachable given the guards). -/
def mapCS (c : Char) : Char :=
  if c = 'H' then '3' else if c = '3' then '2' else if c = '2' then '1' else '?'

/-- Guard `WP`. -/
def guardWP : Str → Bool
  | a :: b :: _ => a = 'W' ∧ b = 'P'
  | _ => false

/-- Guard `W$`. -/
def guardWonly : Str → Bool
  | [a] => a = 'W'
  | _ => false

/-- Guard `IW`. -/
def guardIW : Str → Bool
  | a :: b :: _ => a = 'I' ∧ b = 'W'
  | _ => false

/-- Guard `PB`. -/
def guardPB : Str → Bool
  | a :: b :: _ => a = 'P' ∧ b = 'B'
  | _ => false

/-- Guard `SB(2|3|H)?` (the optional group never blocks a match, so the
prefix `SB` decides it). -/
def guardSB : Str → Bool
  | a :: b :: _ => a = 'S' ∧ b = 'B'
  | _ => false

/-- Guard `E[0-9]`. -/
def guardE : Str → Bool
  | a :: b :: _ => a = 'E' ∧ isDigit09 b
  | _ => false

/-- Guard `DI`. -/
def guardDI : Str → Bool
  | a :: b :: _ => a = 'D' ∧ b = 'I'
  | _ => false

/-- Guard `PO[1-3]`. -/
def guardPO : Str → Bool
  | a :: b :: c :: _ => a = 'P' ∧ b = 'O' ∧ (c = '1' ∨ c = '2' ∨ c = '3')
  | _ => false

/-- The optional capture group `(\([1-9]*E[1-9])?` of the pick-off
rules: on a match returns the number of characters it consumes. -/
def poGroup : Str → Option Nat
  | c :: t =>
    if c = '(' then
      let ds := t.takeWhile isDigit19
      match t.drop ds.length with
      | e :: d :: _ =>
        if e = 'E' ∧ isDigit19 d then some (ds.length + 3) else none
      | _ => none
    else none
  | [] => none

/-- Fuelled scanner for `findPO` (the fuel only forces structural
recursion; each step strictly shortens the string, so fuel equal to the
length never runs out). -/
def findPOAux : Nat → Str → List Bool
  | 0, _ => []
  | fuel + 1, s =>
    match s with
    | a :: b :: c :: rest =>
      if a = 'P' ∧ b = 'O' ∧ (c = '1' ∨ c = '2' ∨ c = '3') then
        match poGroup rest with
        | some n => true :: findPOAux fuel (rest.drop n)
        | none => false :: findPOAux fuel rest
      else findPOAux fuel (b :: c :: rest)
    | _ => []

/-- `re.findall('PO[1-3](\([1-9]*E[1-9])?', s)`: one entry per
occurrence, `true` when the error group matched.  Because `findall`
returns the group only, the matched base itself is lost — this is the
source of the pick-off base bug. -/
def findPO (s : Str) : List Bool := findPOAux s.length s

/-- Guard `POCS[2-3H]`. -/
def guardPOCS : Str → Bool
  | a :: b :: c :: d :: e :: _ =>
    a = 'P' ∧ b = 'O' ∧ c = 'C' ∧ d = 'S' ∧ (e = '2' ∨ e = '3' ∨ e = 'H')
  | _ => false

/-- Fuelled scanner for `findPOCS`, as for `findPOAux`. -/
def findPOCSAux : Nat → Str → List Bool
  | 0, _ => []
  | fuel + 1, s =>
    match s with
    | a :: b :: c :: d :: e :: rest =>
      if a = 'P' ∧ b = 'O' ∧ c = 'C' ∧ d = 'S' ∧ (e = '2' ∨ e = '3' ∨ e = 'H') then
        match poGroup rest with
        | some n => true :: findPOCSAux fuel (rest.drop n)
        | none => false :: findPOCSAux fuel rest
      else findPOCSAux fuel (b :: c :: d :: e :: rest)
    | _ => []

/-- `re.findall('POCS[2-3H](\([1-9]*E[1-9])?', s)`: one entry per
occurrence, `true` when the error group matched. -/
def findPOCS (s : Str) : List Bool := findPOCSAux s.length s

/-- `re.findall('POCS[2-3H]', s)`: the bases of every occurrence. -/
def findPOCSbases : Str → List Char
  | a :: b :: c :: d :: e :: rest =>
    if a = 'P' ∧ b = 'O' ∧ c = 'C' ∧ d = 'S' ∧ (e = '2' ∨ e = '3' ∨ e = 'H') then
      e :: findPOCSbases rest
    else findPOCSbases (b :: c :: d :: e :: rest)
  | _ => []

/-- Guard `BK`. -/
def guardBK : Str → Bool
  | a :: b :: _ => a = 'B' ∧ b = 'K'
  | _ => false

/-- Guard `OA`. -/
def guardOA : Str → Bool
  | a :: b :: _ => a = 'O' ∧ b = 'A'
  | _ => false

/-- Guard `FLE`. -/
def guardFLE : Str → Bool
  | a :: b :: c :: _ => a = 'F' ∧ b = 'L' ∧ c = 'E'
  | _ => false

/-- The category string of the fielder choice rule (contains a
character 39 between `Fielder` and `s`). -/
def fieldersChoice : Str :=
  "Fielder".toList ++ [Char.ofNat 39] ++ "s Choice".toList

/-- One classified atomic sub-event: category, players out, implicit
advances. -/
structure Subevent where
  basicPlay : Str
  playersOut : List Str
  implicitAdvances : List Str
deriving DecidableEq

/-- `_subeventParser`: the ordered, first-match-wins rule chain of
lines 211-336 of the source. -/
def _subeventParser (s : Str) : Subevent :=
  match matchOutFull s with
  | some b => ⟨"Out".toList, [[b.getD 'B']], []⟩
  | none =>
  if matchOutError s then ⟨"Error".toList, [], []⟩
  else if guardFC s then ⟨fieldersChoice, [], ["B-1".toList]⟩
  else if guardConly s then ⟨"Interference".toList, [], ["B-1".toList]⟩
  else if guardNP s then ⟨"No Play".toList, [], []⟩
  else if guardK s then ⟨"Strikeout".toList, [['B']], []⟩
  else if guardHnotP s then ⟨"Hit - Home Run".toList, [], ["B-H".toList]⟩
  else if guardHP s then ⟨"Hit by Pitch".toList, [], ["B-1".toList]⟩
  else if guardS s then ⟨"Hit - Single".toList, [], ["B-1".toList]⟩
  else if guardD s then ⟨"Hit - Double".toList, [], ["B-2".toList]⟩
  else if guardDGR s then ⟨"Hit - Ground Rule Double".toList, [], ["B-2".toList]⟩
  else if guardT s then ⟨"Hit - Triple".toList, [], ["B-3".toList]⟩
  else if guardCS s then
    ⟨"Runner Caught Stealing".toList, (findCS s).map (fun c => [mapCS c]), []⟩
  else if guardWP s then ⟨"Wild Pitch".toList, [], []⟩
  else if guardWonly s then ⟨"Walk".toList, [], ["B-1".toList]⟩
  else if guardIW s then ⟨"Intentional Walk".toList, [], ["B-1".toList]⟩
  else if guardPB s then ⟨"Passed Ball".toList, [], []⟩
  else if guardSB s then ⟨"Stolen Base".toList, [], []⟩
  else if guardE s then ⟨"Error".toList, [], []⟩
  else if guardDI s then ⟨"Defensive Indifference".toList, [], []⟩
  else if guardPO s then
    ⟨(if (findPO s).any id then "Picked Off Base - Error".toList
      else "Picked Off Base".toList),
     (findPO s).filterMap (fun e => if e then none else some []), []⟩
  else if guardPOCS s then
    ⟨(if (findPOCS s).any id then "Picked Off Base Caught Stealing - Error".toList
      else "Picked Off Base Caught Stealing".toList),
     ((findPOCS s).filterMap (fun e =>
        if e then none
        else some ((findPOCSbases s).map (fun c => [mapCS c])))).flatten, []⟩
  else if guardBK s then ⟨"Balk".toList, [], []⟩
  else if guardOA s then ⟨"Other Baserunner Advance".toList, [], []⟩
  else if guardFLE s then ⟨"Error on Foul Flyball".toList, [], []⟩
  else ⟨[], [], []⟩

/-! ## Aggregation (lines 339-492)

`basicPlayDesc`, `fullPlayDesc`, `playersOut`, `playerAdvances`,
`runsScored`, and the per-play pipeline of `enhancePlays`.  Python
builds `playersOut` as `list(set(...))` and `playerAdvances` as a dict
from a set, whose iteration orders are unspecified; the embeddings fix
a deterministic order (first occurrence wins in `dedup`), every claim
below being order-insensitive (membership, length, key sets). -/

/-- The character class `[1-3B]`. -/
def isBase13B (c : Char) : Bool := c = '1' ∨ c = '2' ∨ c = '3' ∨ c = 'B'

/-- The character class `[1-3H]`. -/
def isDest13H (c : Char) : Bool := c = '1' ∨ c = '2' ∨ c = '3' ∨ c = 'H'

/-- The `.*E` tail: an `E` occurring before any newline. -/
def containsEnoNL (t : Str) : Bool := (t.takeWhile (fun c => ¬ c = '\n')).any (· = 'E')

/-- Advance-token pattern `[1-3B]X.*E` (out attempt with an error). -/
def advPatXE : Str → Bool
  | a :: x :: rest => isBase13B a ∧ x = 'X' ∧ containsEnoNL rest
  | _ => false

/-- Advance-token pattern `[1-3B]X` (out attempt). -/
def advPatX : Str → Bool
  | a :: x :: _ => isBase13B a ∧ x = 'X'
  | _ => false

/-- Advance-token pattern `[1-3B]-` (successful advance). -/
def advPatDash : Str → Bool
  | a :: x :: _ => isBase13B a ∧ x = '-'
  | _ => false

/-- Advance-token pattern `[1-3B]X[1-3H].*E` (out attempt with a
destination and an error, used by `playerAdvances`). -/
def advPatXdE : Str → Bool
  | a :: x :: b :: rest => isBase13B a ∧ x = 'X' ∧ isDest13H b ∧ containsEnoNL rest
  | _ => false

/-- Advance-token pattern `[1-3B]-[1-3H]` (successful advance with a
destination, used by `playerAdvances`). -/
def advPatDashD : Str → Bool
  | a :: x :: b :: _ => isBase13B a ∧ x = '-' ∧ isDest13H b
  | _ => false

/-- `playersOut` (lines 403-432): outs from sub-events plus outs from
caught-out advance tokens, minus bases exempted by an error-annotated
or successful advance token. -/
def playersOut (playSplit : PlaySplit) (subeventsParsed : List Subevent) :
    List Str :=
  let subeventsOuts := (subeventsParsed.map Subevent.playersOut).flatten
  let advNotOut :=
    ((playSplit.advs.filter (fun i => advPatXE i ∨ (¬ advPatX i ∧ advPatDash i))).map
      (List.take 1))
  let advOuts :=
    ((playSplit.advs.filter (fun i => ¬ advPatXE i ∧ advPatX i)).map
      (List.take 1))
  ((advOuts ++ subeventsOuts).dedup).filter (fun x => ¬ x ∈ advNotOut)

/-- One key update of a Python dict: overwrite in place or append. -/
def dictUpd : List (Char × Char) → Char → Char → List (Char × Char)
  | [], k, v => [(k, v)]
  | (a, b) :: rest, k, v =>
    if a = k then (a, v) :: rest else (a, b) :: dictUpd rest k v

/-- `playerAdvances` (lines 435-462): explicit advance tokens that are
successful or error-annotated, together with implicit advances whose
starting base no advance token mentions; returned as a base-to-base
dict.  The two `.error` cases model the Python index errors on an empty
token or a too-short final advance string. -/
def playerAdvances (playSplit : PlaySplit) (subeventsParsed : List Subevent) :
    Except String (List (Char × Char)) :=
  let implicitAdvances := (subeventsParsed.map Subevent.implicitAdvances).flatten
  let advs := playSplit.advs
  let advsNotOut :=
    (advs.filter (fun i => advPatXdE i ∨ advPatDashD i)).map (List.take 3)
  if implicitAdvances ≠ [] ∧ advs ≠ [] ∧
      ([] ∈ implicitAdvances ∨ [] ∈ advs) then
    .error "string index out of range"
  else
    let ria := implicitAdvances.filter (fun i => advs.any (fun j => i.take 1 = j.take 1))
    let finalAdvs := ((advsNotOut ++ implicitAdvances).dedup).filter (fun x => ¬ x ∈ ria)
    if finalAdvs.any (fun i => i.length < 3) then
      .error "string index out of range"
    else
      .ok (finalAdvs.foldl
        (fun m i => dictUpd m (i.headD ' ') ((i.drop 2).headD ' ')) [])

/-- `runsScored` (lines 464-466): destinations equal to `H`. -/
def runsScored (playerAdvances : List (Char × Char)) : Nat :=
  (playerAdvances.map Prod.snd).countP (fun c => c = 'H')

/-- `basicPlayDesc` (lines 339-368): one sub-event gives its category;
several starting with an `Out` give Out, Double Play or Triple Play by
the count of `Out` categories (undefined beyond three, a Python
unbound-variable error); otherwise the first category. -/
def basicPlayDesc (subevents : List Subevent) : Except String Str :=
  match subevents with
  | [] => .error "Subevent length must be greater than 0"
  | [u] => .ok u.basicPlay
  | u :: v :: rest =>
    if u.basicPlay = "Out".toList then
      let nOuts := (u :: v :: rest).countP (fun i => i.basicPlay = "Out".toList)
      if nOuts = 1 then .ok "Out".toList
      else if nOuts = 2 then .ok "Double Play".toList
      else if nOuts = 3 then .ok "Triple Play".toList
      else .error "basicPlayDesc unbound"
    else .ok u.basicPlay

/-- `fullPlayDesc` (lines 371-400): like `basicPlayDesc` but joining all
categories when the first sub-event is not an `Out`. -/
def fullPlayDesc (subevents : List Subevent) : Except String Str :=
  match subevents with
  | [] => .error "Subevent length must be greater than 0"
  | [u] => .ok u.basicPlay
  | u :: v :: rest =>
    if u.basicPlay = "Out".toList then
      let nOuts := (u :: v :: rest).countP (fun i => i.basicPlay = "Out".toList)
      if nOuts = 1 then .ok "Out".toList
      else if nOuts = 2 then .ok "Double Play".toList
      else if nOuts = 3 then .ok "Triple Play".toList
      else .error "fullPlayDesc unbound"
    else .ok (List.intercalate " - ".toList ((u :: v :: rest).map Subevent.basicPlay))

/-- The derived attributes `enhancePlays` (lines 468-492) adds to one
play row. -/
structure DerivedPlay where
  basicPlayDesc : Str
  fullPlayDesc : Str
  playersOut : List Str
  outsOnPlay : Nat
  playerAdvances : List (Char × Char)
  runsScored : Nat
deriving DecidableEq

/-- The per-play pipeline of `enhancePlays`: split the play, split the
event into sub-events, classify them, and derive descriptions, outs,
advances and runs. -/
def derivePlay (play : Str) : Except String DerivedPlay :=
  match _playSplitter play with
  | .error e => .error e
  | .ok ps =>
    match _subevent_splitter ps.event with
    | .error e => .error e
    | .ok sstrs =>
      let parsed := sstrs.map _subeventParser
      match basicPlayDesc parsed with
      | .error e => .error e
      | .ok bd =>
        match fullPlayDesc parsed with
        | .error e => .error e
        | .ok fd =>
          let pOut := playersOut ps parsed
          match playerAdvances ps parsed with
          | .error e => .error e
          | .ok m => .ok ⟨bd, fd, pOut, pOut.length, m, runsScored m⟩

/-! ## Theorems -/

/-- Whether a computation raised (Python: an exception escaped). -/
def isErr {α : Type} : Except String α → Bool
  | .error _ => true
  | .ok _ => false

theorem depthEnd_nil : depthEnd [] = 0 := rfl

theorem depthEnd_cons (c : Char) (cs : Str) :
    depthEnd (c :: cs) = parenDelta c + depthEnd cs := by
  simp [depthEnd]

theorem depthEnd_append (xs ys : Str) :
    depthEnd (xs ++ ys) = depthEnd xs + depthEnd ys := by
  simp [depthEnd]

theorem goesNeg_cons (c : Char) (cs : Str) (d : Int) :
    goesNeg (c :: cs) d =
      (if d + parenDelta c < 0 then true else goesNeg cs (d + parenDelta c)) := rfl

/-- If the total depth ends negative, either we started negative or the
scan crossed below zero. -/
theorem goesNeg_of_total_neg :
    ∀ (cs : Str) (d : Int), d + depthEnd cs < 0 → d < 0 ∨ goesNeg cs d = true := by
  intro cs
  induction cs with
  | nil => intro d h; left; simpa [depthEnd_nil] using h
  | cons c cs ih =>
    intro d h
    rw [depthEnd_cons] at h
    by_cases hd : d + parenDelta c < 0
    · right; simp [goesNeg_cons, hd]
    · rcases ih (d + parenDelta c) (by omega) with h' | h'
      · omega
      · right; simp [goesNeg_cons, hd, h']

theorem scanSplit_cons (sep : Char → Bool) (c : Char) (cs : Str) (d : Int) (cur : Str) :
    scanSplit sep (c :: cs) d cur =
      (if c = '(' then scanSplit sep cs (d + 1) (c :: cur)
       else if c = ')' then
         if d - 1 < 0 then .error "Syntax error"
         else scanSplit sep cs (d - 1) (c :: cur)
       else if sep c ∧ d = 0 then
         match scanSplit sep cs d [c] with
         | .error e => .error e
         | .ok r => .ok (cur.reverse :: r)
       else scanSplit sep cs d (c :: cur)) := rfl

/-- The scanning loop of `split_sep_rspct_paren` raises exactly when the
depth crosses below zero or ends positive. -/
theorem scanSplit_isErr (sep : Char → Bool) :
    ∀ (cs : Str) (d : Int) (cur : Str), 0 ≤ d →
      (isErr (scanSplit sep cs d cur) = true ↔
        (goesNeg cs d = true ∨ d + depthEnd cs ≠ 0)) := by
  intro cs
  induction cs with
  | nil =>
    intro d cur hd
    by_cases h : d > 0 <;>
      simp [scanSplit, isErr, h, goesNeg, depthEnd_nil] <;> omega
  | cons c cs ih =>
    intro d cur hd
    rw [scanSplit_cons, goesNeg_cons, depthEnd_cons]
    by_cases hop : c = '('
    · have hδ : parenDelta c = 1 := by simp [parenDelta, hop]
      rw [if_pos hop, ih (d + 1) _ (by omega), hδ,
        if_neg (show ¬ (d + (1 : Int) < 0) by omega)]
      constructor
      · rintro (h | h)
        · exact Or.inl h
        · right; omega
      · rintro (h | h)
        · exact Or.inl h
        · right; omega
    · by_cases hcl : c = ')'
      · have hδ : parenDelta c = -1 := by simp [parenDelta, hop, hcl]
        rw [if_neg hop, if_pos hcl, hδ]
        by_cases hneg : d - 1 < 0
        · rw [if_pos hneg, if_pos (show d + (-1 : Int) < 0 by omega)]
          simp [isErr]
        · rw [if_neg hneg, if_neg (show ¬ (d + (-1 : Int) < 0) by omega),
            ih (d - 1) _ (by omega)]
          constructor
          · rintro (h | h)
            · left
              have : d - 1 = d + (-1 : Int) := by omega
              rwa [this] at h
            · right; omega
          · rintro (h | h)
            · left
              have : d + (-1 : Int) = d - 1 := by omega
              rwa [this] at h
            · right; omega
      · have hδ : parenDelta c = 0 := by simp [parenDelta, hop, hcl]
        rw [if_neg hop, if_neg hcl, hδ,
          if_neg (show ¬ (d + (0 : Int) < 0) by omega)]
        have tail : isErr (scanSplit sep cs d (c :: cur)) = true ↔
            (goesNeg cs (d + 0) = true ∨ d + (0 + depthEnd cs) ≠ 0) := by
          rw [ih d _ hd]
          constructor
          · rintro (h | h)
            · left; simpa using h
            · right; omega
          · rintro (h | h)
            · left; simpa using h
            · right; omega
        by_cases hsep : sep c = true ∧ d = 0
        · rw [if_pos hsep]
          have hm : isErr (match scanSplit sep cs d [c] with
                 | (.error e : Except String (List Str)) => (.error e : Except String (List Str))
                 | .ok r => .ok (cur.reverse :: r)) = isErr (scanSplit sep cs d [c]) := by
            cases scanSplit sep cs d [c] <;> rfl
          rw [hm, ih d _ hd]
          constructor
          · rintro (h | h)
            · left; simpa using h
            · right; omega
          · rintro (h | h)
            · left; simpa using h
            · right; omega
        · rw [if_neg hsep]
          exact tail

theorem eventScan_cons (c : Char) (cs : Str) (d : Int) (p : Bool) (cur : Str) :
    eventScan (c :: cs) d p cur =
      (if c = '(' then eventScan cs (d + 1) false (c :: cur)
       else if c = ')' then
         if d - 1 < 0 then .error "Syntax error"
         else eventScan cs (d - 1) true (c :: cur)
       else if p ∧ d = 0 then
         match eventScan cs d false [c] with
         | .error e => .error e
         | .ok r => .ok (cur.reverse :: r)
       else eventScan cs d false (c :: cur)) := rfl

/-- The scanning loop of `_event_splitter` raises exactly when the depth
crosses below zero or ends positive. -/
theorem eventScan_isErr :
    ∀ (cs : Str) (d : Int) (p : Bool) (cur : Str), 0 ≤ d →
      (isErr (eventScan cs d p cur) = true ↔
        (goesNeg cs d = true ∨ d + depthEnd cs ≠ 0)) := by
  intro cs
  induction cs with
  | nil =>
    intro d p cur hd
    by_cases h : d > 0 <;>
      simp [eventScan, isErr, h, goesNeg, depthEnd_nil] <;> omega
  | cons c cs ih =>
    intro d p cur hd
    rw [eventScan_cons, goesNeg_cons, depthEnd_cons]
    by_cases hop : c = '('
    · have hδ : parenDelta c = 1 := by simp [parenDelta, hop]
      rw [if_pos hop, ih (d + 1) _ _ (by omega), hδ,
        if_neg (show ¬ (d + (1 : Int) < 0) by omega)]
      constructor
      · rintro (h | h)
        · exact Or.inl h
        · right; omega
      · rintro (h | h)
        · exact Or.inl h
        · right; omega
    · by_cases hcl : c = ')'
      · have hδ : parenDelta c = -1 := by simp [parenDelta, hop, hcl]
        rw [if_neg hop, if_pos hcl, hδ]
        by_cases hneg : d - 1 < 0
        · rw [if_pos hneg, if_pos (show d + (-1 : Int) < 0 by omega)]
          simp [isErr]
        · rw [if_neg hneg, if_neg (show ¬ (d + (-1 : Int) < 0) by omega),
            ih (d - 1) _ _ (by omega)]
          constructor
          · rintro (h | h)
            · left
              have : d - 1 = d + (-1 : Int) := by omega
              rwa [this] at h
            · right; omega
          · rintro (h | h)
            · left
              have : d + (-1 : Int) = d - 1 := by omega
              rwa [this] at h
            · right; omega
      · have hδ : parenDelta c = 0 := by simp [parenDelta, hop, hcl]
        rw [if_neg hop, if_neg hcl, hδ,
          if_neg (show ¬ (d + (0 : Int) < 0) by omega)]
        have tail : isErr (eventScan cs d false (c :: cur)) = true ↔
            (goesNeg cs (d + 0) = true ∨ d + (0 + depthEnd cs) ≠ 0) := by
          rw [ih d _ _ hd]
          constructor
          · rintro (h | h)
            · left; simpa using h
            · right; omega
          · rintro (h | h)
            · left; simpa using h
            · right; omega
        by_cases hp : p = true ∧ d = 0
        · rw [if_pos hp]
          have hm : isErr (match eventScan cs d false [c] with
                 | (.error e : Except String (List Str)) => (.error e : Except String (List Str))
                 | .ok r => .ok (cur.reverse :: r)) = isErr (eventScan cs d false [c]) := by
            cases eventScan cs d false [c] <;> rfl
          rw [hm, ih d _ _ hd]
          constructor
          · rintro (h | h)
            · left; simpa using h
            · right; omega
          · rintro (h | h)
            · left; simpa using h
            · right; omega
        · rw [if_neg hp]
          exact tail

theorem goesNeg_cons_delta0 {c : Char} (h : parenDelta c = 0) (cs : Str) :
    goesNeg (c :: cs) 0 = goesNeg cs 0 := by
  rw [goesNeg_cons, h]
  simp

theorem goesNeg_append_single :
    ∀ (xs : Str) (c : Char) (d : Int),
      goesNeg (xs ++ [c]) d = true ↔
        (goesNeg xs d = true ∨ d + depthEnd xs + parenDelta c < 0) := by
  intro xs
  induction xs with
  | nil =>
    intro c d
    simp only [List.nil_append, goesNeg_cons, goesNeg, depthEnd_nil]
    by_cases h : d + parenDelta c < 0 <;> simp [h]
  | cons x xs ih =>
    intro c d
    rw [List.cons_append, goesNeg_cons, goesNeg_cons, depthEnd_cons]
    by_cases hx : d + parenDelta x < 0
    · simp [hx]
    · simp only [if_neg hx]
      rw [ih c (d + parenDelta x)]
      constructor
      · rintro (h | h)
        · exact Or.inl h
        · right; omega
      · rintro (h | h)
        · exact Or.inl h
        · right; omega

theorem getLast?_some_decomp :
    ∀ {l : Str} {a : Char}, l.getLast? = some a → ∃ ys, l = ys ++ [a] := by
  intro l
  induction l with
  | nil => intro a h; cases h
  | cons x xs ih =>
    intro a h
    cases xs with
    | nil =>
      simp [List.getLast?] at h
      exact ⟨[], by simp [h]⟩
    | cons y ys =>
      rw [List.getLast?_cons_cons] at h
      obtain ⟨zs, hz⟩ := ih h
      exact ⟨x :: zs, by simp [hz]⟩

/-- Removing a trailing depth-neutral character changes neither the
negativity of the scan (from zero) nor the final depth test. -/
theorem strip_last_neutral {c : Char} (h : parenDelta c = 0) (xs : Str) :
    (goesNeg (xs ++ [c]) 0 = true ↔ goesNeg xs 0 = true) ∧
      depthEnd (xs ++ [c]) = depthEnd xs := by
  constructor
  · rw [goesNeg_append_single xs c 0, h]
    constructor
    · rintro (hg | hg)
      · exact hg
      · rcases goesNeg_of_total_neg xs 0 (by omega) with h' | h'
        · omega
        · exact h'
    · exact Or.inl
  · rw [depthEnd_append, depthEnd_cons, depthEnd_nil, h]
    omega

/-- Stripping boundary separators (depth-neutral characters) preserves
both unbalancedness signals. -/
theorem stripSeps_neutral (sep : Char → Bool)
    (hsep : ∀ c, sep c = true → parenDelta c = 0) (s : Str) :
    (goesNeg (stripSeps sep s) 0 = true ↔ goesNeg s 0 = true) ∧
      depthEnd (stripSeps sep s) = depthEnd s := by
  unfold stripSeps
  have step2 : ∀ t : Str,
      (goesNeg (match t.getLast? with
        | some c => if sep c then t.dropLast else t
        | none => t) 0 = true ↔ goesNeg t 0 = true) ∧
      depthEnd (match t.getLast? with
        | some c => if sep c then t.dropLast else t
        | none => t) = depthEnd t := by
    intro t
    cases hgl : t.getLast? with
    | none => exact ⟨Iff.rfl, rfl⟩
    | some c =>
      by_cases hc : sep c = true
      · obtain ⟨ys, rfl⟩ := getLast?_some_decomp hgl
        have hy : (ys ++ [c]).dropLast = ys := by simp
        have hd := strip_last_neutral (hsep c hc) ys
        simp only [hc, if_true, hy]
        exact ⟨hd.1.symm, hd.2.symm⟩
      · simp only [Bool.not_eq_true] at hc
        simp [hc]
  cases s with
  | nil => exact step2 []
  | cons x xs =>
    by_cases hx : sep x = true
    · have h1 := step2 xs
      have hδ : parenDelta x = 0 := hsep x hx
      simp only [hx, if_true]
      refine ⟨h1.1.trans ?_, h1.2.trans ?_⟩
      · rw [goesNeg_cons_delta0 hδ]
      · rw [depthEnd_cons, hδ]; omega
    · simp only [Bool.not_eq_true] at hx
      simp only [hx]
      exact step2 (x :: xs)

/-- C6.  The splitter and the event segmenter raise a syntax error on
exactly the strings whose paren depth scan goes negative at some point
or ends nonzero; in particular the segmenter raises on `46(1`, and on a
balanced string (depth never negative, ending at zero) no error is
raised.  Stated for the two separator classes the source uses (`/`,`.`
for the play grammar and `+` for compound events) and for the
event splitter. -/
theorem splitter_error_iff_unbalanced :
    (∀ s : Str,
      isErr (split_sep_rspct_paren (fun c => c = '/' ∨ c = '.') s) = true ↔
        (goesNeg s 0 = true ∨ depthEnd s ≠ 0))
    ∧ (∀ s : Str,
      isErr (split_sep_rspct_paren (fun c => c = '+') s) = true ↔
        (goesNeg s 0 = true ∨ depthEnd s ≠ 0))
    ∧ (∀ s : Str,
      isErr (_event_splitter s) = true ↔
        (goesNeg s 0 = true ∨ depthEnd s ≠ 0))
    ∧ isErr (_subevent_splitter "46(1".toList) = true := by
  have base : ∀ (sep : Char → Bool), (∀ c, sep c = true → parenDelta c = 0) →
      ∀ s : Str, isErr (split_sep_rspct_paren sep s) = true ↔
        (goesNeg s 0 = true ∨ depthEnd s ≠ 0) := by
    intro sep hsep s
    unfold split_sep_rspct_paren
    rw [scanSplit_isErr sep (stripSeps sep s) 0 [] (by omega)]
    obtain ⟨h1, h2⟩ := stripSeps_neutral sep hsep s
    rw [h1, h2]
    constructor
    · rintro (h | h)
      · exact Or.inl h
      · right; omega
    · rintro (h | h)
      · exact Or.inl h
      · right; omega
  refine ⟨base _ ?_, base _ ?_, ?_, by decide⟩
  · intro c hc
    simp only [decide_eq_true_eq] at hc
    rcases hc with rfl | rfl <;> rfl
  · intro c hc
    simp only [decide_eq_true_eq] at hc
    subst hc; rfl
  · intro s
    unfold _event_splitter
    rw [eventScan_isErr s 0 false [] (by omega)]
    constructor
    · rintro (h | h)
      · exact Or.inl h
      · right; omega
    · rintro (h | h)
      · exact Or.inl h
      · right; omega

/-- Splitting by `eventScan` loses no characters: the segments of a
successful run concatenate back to the input (after the pending
segment). -/
theorem eventScan_flatten :
    ∀ (cs : Str) (d : Int) (p : Bool) (cur : Str) (segs : List Str),
      eventScan cs d p cur = .ok segs → segs.flatten = cur.reverse ++ cs := by
  intro cs
  induction cs with
  | nil =>
    intro d p cur segs h
    by_cases hd : d > 0
    · simp [eventScan, hd] at h
    · simp only [eventScan, if_neg hd] at h
      cases h
      simp
  | cons c cs ih =>
    intro d p cur segs h
    rw [eventScan_cons] at h
    by_cases hop : c = '('
    · rw [if_pos hop] at h
      simpa using ih (d + 1) false (c :: cur) segs h
    · rw [if_neg hop] at h
      by_cases hcl : c = ')'
      · rw [if_pos hcl] at h
        by_cases hneg : d - 1 < 0
        · rw [if_pos hneg] at h; cases h
        · rw [if_neg hneg] at h
          simpa using ih (d - 1) true (c :: cur) segs h
      · rw [if_neg hcl] at h
        by_cases hp : p = true ∧ d = 0
        · rw [if_pos hp] at h
          cases heq : eventScan cs d false [c] with
          | error e => rw [heq] at h; cases h
          | ok r =>
            rw [heq] at h
            cases h
            have hr := ih d false [c] r heq
            simp only [List.flatten_cons, hr]
            simp
        · rw [if_neg hp] at h
          simpa using ih d false (c :: cur) segs h

/-- C9.  The event segmenter splits a compound event by first splitting
on `+` (respecting parens) and then breaking after a balanced closing
paren at depth zero not followed by an opening paren; in particular
`46(1)(E6)63` yields exactly `46(1)(E6)` then `63`, and the atomic
segments of the paren-break stage always concatenate back to their
input (nothing is dropped or reordered). -/
theorem segmenter_splits_after_balanced_paren :
    _subevent_splitter "46(1)(E6)63".toList =
      .ok ["46(1)(E6)".toList, "63".toList]
    ∧ (∀ (s : Str) (segs : List Str),
        _event_splitter s = .ok segs → segs.flatten = s) := by
  refine ⟨by decide, ?_⟩
  intro s segs h
  simpa using eventScan_flatten s 0 false [] segs h

/-- Witness for C9 at the concrete compound event. -/
theorem segmenter_splits_after_balanced_paren_witness :
    (["46(1)(E6)".toList, "63".toList] : List Str).flatten
      = "46(1)(E6)63".toList :=
  segmenter_splits_after_balanced_paren.2 ("46(1)(E6)63".toList) _ (by decide)

/-- C1 (bug evidence).  On the play `HR.B-H` the advances clause holds
the explicit token `B-H`, yet the derived advance map is empty and no
run is scored: the token is cancelled because it textually equals the
implicit home-run advance, which `playerAdvances` subtracts. -/
theorem explicit_advance_cancelled_by_implicit :
    _playSplitter "HR.B-H".toList = .ok ⟨"HR".toList, [], ["B-H".toList]⟩
    ∧ derivePlay "HR.B-H".toList =
        .ok ⟨"Hit - Home Run".toList, "Hit - Home Run".toList, [], 0, [], 0⟩ := by
  decide

/-- C2 (bug evidence).  `PO1`, `PO2`, `PO3` classify as Picked Off Base
but record the empty string, not the base, as the player out (the
source reads the base from the regex capture group that `findall`
returns, which is empty when no error group matched); with an error
code the error category is returned and nobody is recorded out. -/
theorem pickoff_records_empty_string_out :
    _subeventParser "PO1".toList = ⟨"Picked Off Base".toList, [[]], []⟩
    ∧ _subeventParser "PO2".toList = ⟨"Picked Off Base".toList, [[]], []⟩
    ∧ _subeventParser "PO3".toList = ⟨"Picked Off Base".toList, [[]], []⟩
    ∧ _subeventParser "PO1".toList ≠ ⟨"Picked Off Base".toList, [['1']], []⟩
    ∧ _subeventParser "PO1(E3)".toList =
        ⟨"Picked Off Base - Error".toList, [], []⟩ := by
  decide

/-- C3 counterexample.  The one-character sub-event `H` does not match
`H[^P]` (which needs a following character), so it falls through every
rule and is left unclassified, not classified as a home run. -/
theorem lone_H_is_unclassified :
    _subeventParser "H".toList = ⟨[], [], []⟩
    ∧ _subeventParser "H".toList ≠
        ⟨"Hit - Home Run".toList, [], ["B-H".toList]⟩ := by
  decide

/-- C5 counterexample.  `46(1)54(1)` classifies as two `Out` sub-events
(first one an `Out`), so the derived description is Double Play, but
both outs name the same base `1`, the set union collapses them, and
`outsOnPlay` is 1, not 2. -/
theorem double_play_with_one_out :
    (_subeventParser "46(1)".toList).basicPlay = "Out".toList
    ∧ _subevent_splitter "46(1)54(1)".toList =
        .ok ["46(1)".toList, "54(1)".toList]
    ∧ ((["46(1)".toList, "54(1)".toList].map _subeventParser).countP
        (fun u => u.basicPlay = "Out".toList)) = 2
    ∧ derivePlay "46(1)54(1)".toList =
        .ok ⟨"Double Play".toList, "Double Play".toList, [['1']], 1, [], 0⟩ := by
  decide

/-- Disjunction of every rule guard of `_subeventParser`, in source
order. -/
def anyRuleMatches (s : Str) : Bool :=
  (matchOutFull s).isSome || matchOutError s || guardFC s || guardConly s ||
  guardNP s || guardK s || guardHnotP s || guardHP s || guardS s ||
  guardD s || guardDGR s || guardT s || guardCS s || guardWP s ||
  guardWonly s || guardIW s || guardPB s || guardSB s || guardE s ||
  guardDI s || guardPO s || guardPOCS s || guardBK s || guardOA s ||
  guardFLE s

/-- C7.  The classifier is total by construction; when no rule guard
matches it returns the unclassified result: empty category, no players
out and no implicit advances. -/
theorem classifier_unmatched_gives_unclassified (s : Str)
    (h : anyRuleMatches s = false) : _subeventParser s = ⟨[], [], []⟩ := by
  simp only [anyRuleMatches, Bool.or_eq_false_iff, and_assoc] at h
  obtain ⟨h1, h2, h3, h4, h5, h6, h7, h8, h9, h10, h11, h12, h13, h14,
    h15, h16, h17, h18, h19, h20, h21, h22, h23, h24, h25⟩ := h
  have hof : matchOutFull s = none := by
    cases hm : matchOutFull s with
    | none => rfl
    | some b => rw [hm] at h1; cases h1
  unfold _subeventParser
  rw [hof]
  simp [h2, h3, h4, h5, h6, h7, h8, h9, h10, h11, h12, h13, h14,
    h15, h16, h17, h18, h19, h20, h21, h22, h23, h24, h25]

/-- Witness for C7: `Z9` matches no rule and comes back unclassified. -/
theorem classifier_unmatched_gives_unclassified_witness :
    anyRuleMatches "Z9".toList = false
    ∧ _subeventParser "Z9".toList = ⟨[], [], []⟩ :=
  ⟨by decide, classifier_unmatched_gives_unclassified _ (by decide)⟩

theorem matchOutFull_not_digit {a : Char} (h : isDigit19 a = false) (t : Str) :
    matchOutFull (a :: t) = none := by
  unfold matchOutFull
  simp [List.takeWhile_cons, h]

/-- C3 (amended).  Any sub-event of two or more characters starting
with `H` whose second character is not `P` classifies as a home run
with the implicit advance `B-H` and nobody out; the one-character
string `H` itself matches no rule (see the counterexample). -/
theorem h_followed_by_nonP_is_home_run (c : Char) (rest : Str) (hc : c ≠ 'P') :
    _subeventParser ('H' :: c :: rest) =
      ⟨"Hit - Home Run".toList, [], ["B-H".toList]⟩ := by
  have h1 : matchOutFull ('H' :: c :: rest) = none :=
    matchOutFull_not_digit (by decide) _
  have h2 : matchOutError ('H' :: c :: rest) = false := rfl
  have h3 : guardFC ('H' :: c :: rest) = false := rfl
  have h4 : guardConly ('H' :: c :: rest) = false := rfl
  have h5 : guardNP ('H' :: c :: rest) = false := rfl
  have h6 : guardK ('H' :: c :: rest) = false := rfl
  have h7 : guardHnotP ('H' :: c :: rest) = true := by
    simp [guardHnotP, hc]
  unfold _subeventParser
  rw [h1]
  simp only [h2, h3, h4, h5, h6, h7]
  simp

/-- Witness for C3: `HR` is a home run. -/
theorem h_followed_by_nonP_is_home_run_witness :
    ('R' ≠ 'P')
    ∧ _subeventParser "HR".toList =
        ⟨"Hit - Home Run".toList, [], ["B-H".toList]⟩ :=
  ⟨by decide, h_followed_by_nonP_is_home_run 'R' [] (by decide)⟩

theorem advPatDash_not_X {i : Str} (h : advPatDash i = true) :
    advPatX i = false := by
  cases i with
  | nil => rfl
  | cons a t =>
    cases t with
    | nil => rfl
    | cons x t' =>
      simp only [advPatDash, decide_eq_true_eq] at h
      simp only [advPatX, decide_eq_false_iff_not]
      rintro ⟨-, hx⟩
      rw [hx] at h
      exact absurd h.2 (by decide)

/-- Membership in the `playersOut` result, unfolded. -/
theorem mem_playersOut_iff (ps : PlaySplit) (subs : List Subevent) (x : Str) :
    x ∈ playersOut ps subs ↔
      ((∃ j ∈ ps.advs, (¬ advPatXE j = true ∧ advPatX j = true) ∧ j.take 1 = x)
        ∨ ∃ u ∈ subs, x ∈ u.playersOut)
      ∧ ¬ ∃ j ∈ ps.advs,
          (advPatXE j = true ∨ (¬ advPatX j = true ∧ advPatDash j = true))
          ∧ j.take 1 = x := by
  unfold playersOut
  simp only [List.mem_filter, List.mem_dedup, List.mem_append, List.mem_map,
    List.mem_flatten, decide_eq_true_eq, List.mem_filter]
  constructor
  · rintro ⟨hmem, hnot⟩
    refine ⟨?_, ?_⟩
    · rcases hmem with ⟨j, ⟨hj, hcond⟩, hx⟩ | ⟨l, ⟨u, hu, rfl⟩, hx⟩
      · exact Or.inl ⟨j, hj, by simpa using hcond, hx⟩
      · exact Or.inr ⟨u, hu, hx⟩
    · rintro ⟨j, hj, hcond, hx⟩
      exact hnot ⟨j, ⟨hj, by simpa using hcond⟩, hx⟩
  · rintro ⟨hmem, hnot⟩
    refine ⟨?_, ?_⟩
    · rcases hmem with ⟨j, hj, hcond, hx⟩ | ⟨u, hu, hx⟩
      · exact Or.inl ⟨j, ⟨hj, by simpa using hcond⟩, hx⟩
      · exact Or.inr ⟨u.playersOut, ⟨u, hu, rfl⟩, hx⟩
    · rintro ⟨j, ⟨hj, hcond⟩, hx⟩
      exact hnot ⟨j, hj, by simpa using hcond, hx⟩

/-- C4.  An advance token `<base>X<dest>` with an error code exempts its
base from `playersOut` (even when a sub-event lists that base as out);
so does a successful `<base>-<dest>` token; and a `<base>X...` token
without an error code puts its base out unless another token exempts
that same base. -/
theorem error_annotated_out_advances_never_out
    (ps : PlaySplit) (subs : List Subevent) (i : Str) (hmem : i ∈ ps.advs) :
    (advPatXE i = true → ¬ i.take 1 ∈ playersOut ps subs)
    ∧ (advPatDash i = true → ¬ i.take 1 ∈ playersOut ps subs)
    ∧ (advPatX i = true → advPatXE i = false →
        (∀ j ∈ ps.advs, (advPatXE j = true ∨ advPatDash j = true) →
          j.take 1 ≠ i.take 1) →
        i.take 1 ∈ playersOut ps subs) := by
  refine ⟨?_, ?_, ?_⟩
  · intro hXE hin
    rw [mem_playersOut_iff] at hin
    exact hin.2 ⟨i, hmem, Or.inl hXE, rfl⟩
  · intro hDash hin
    rw [mem_playersOut_iff] at hin
    refine hin.2 ⟨i, hmem, Or.inr ⟨?_, hDash⟩, rfl⟩
    rw [advPatDash_not_X hDash]
    simp
  · intro hX hXE hnone
    rw [mem_playersOut_iff]
    refine ⟨Or.inl ⟨i, hmem, ⟨by rw [hXE]; simp, hX⟩, rfl⟩, ?_⟩
    rintro ⟨j, hj, hcond, hx⟩
    refine hnone j hj ?_ hx
    rcases hcond with h | h
    · exact Or.inl h
    · exact Or.inr h.2

/-- Witness for C4 on the advances clause `2XH(E5);1X2;3-H` with a
sub-event putting base 2 out: base 2 and base 3 are exempt, base 1 is
out. -/
theorem error_annotated_out_advances_never_out_witness :
    (¬ ['2'] ∈ playersOut ⟨[], [], ["2XH(E5)".toList, "1X2".toList, "3-H".toList]⟩
        [_subeventParser "46(2)".toList])
    ∧ (¬ ['3'] ∈ playersOut ⟨[], [], ["2XH(E5)".toList, "1X2".toList, "3-H".toList]⟩
        [_subeventParser "46(2)".toList])
    ∧ ['1'] ∈ playersOut ⟨[], [], ["2XH(E5)".toList, "1X2".toList, "3-H".toList]⟩
        [_subeventParser "46(2)".toList] :=
  ⟨(error_annotated_out_advances_never_out _ _ ("2XH(E5)".toList)
      (by decide)).1 (by decide),
   (error_annotated_out_advances_never_out _ _ ("3-H".toList)
      (by decide)).2.1 (by decide),
   (error_annotated_out_advances_never_out _ _ ("1X2".toList)
      (by decide)).2.2 (by decide) (by decide) (by decide)⟩

/-- A sub-event classified `Out` puts exactly one base out and implies
no advance. -/
theorem out_singleton (s : Str) (h : (_subeventParser s).basicPlay = "Out".toList) :
    ∃ b, _subeventParser s = ⟨"Out".toList, [[b]], []⟩ := by
  unfold _subeventParser at h ⊢
  split at h
  · rename_i b heq
    exact ⟨b.getD 'B', rfl⟩
  · exfalso
    by_cases hg1 : matchOutError s = true
    · rw [if_pos hg1] at h
      exact absurd h (by decide)
    · rw [if_neg hg1] at h
      by_cases hg2 : guardFC s = true
      · rw [if_pos hg2] at h
        exact absurd h (by decide)
      · rw [if_neg hg2] at h
        by_cases hg3 : guardConly s = true
        · rw [if_pos hg3] at h
          exact absurd h (by decide)
        · rw [if_neg hg3] at h
          by_cases hg4 : guardNP s = true
          · rw [if_pos hg4] at h
            exact absurd h (by decide)
          · rw [if_neg hg4] at h
            by_cases hg5 : guardK s = true
            · rw [if_pos hg5] at h
              exact absurd h (by decide)
            · rw [if_neg hg5] at h
              by_cases hg6 : guardHnotP s = true
              · rw [if_pos hg6] at h
                exact absurd h (by decide)
              · rw [if_neg hg6] at h
                by_cases hg7 : guardHP s = true
                · rw [if_pos hg7] at h
                  exact absurd h (by decide)
                · rw [if_neg hg7] at h
                  by_cases hg8 : guardS s = true
                  · rw [if_pos hg8] at h
                    exact absurd h (by decide)
                  · rw [if_neg hg8] at h
                    by_cases hg9 : guardD s = true
                    · rw [if_pos hg9] at h
                      exact absurd h (by decide)
                    · rw [if_neg hg9] at h
                      by_cases hg10 : guardDGR s = true
                      · rw [if_pos hg10] at h
                        exact absurd h (by decide)
                      · rw [if_neg hg10] at h
                        by_cases hg11 : guardT s = true
                        · rw [if_pos hg11] at h
                          exact absurd h (by decide)
                        · rw [if_neg hg11] at h
                          by_cases hg12 : guardCS s = true
                          · rw [if_pos hg12] at h
                            have hcat : "Runner Caught Stealing".toList = "Out".toList := h
                            exact absurd hcat (by decide)
                          · rw [if_neg hg12] at h
                            by_cases hg13 : guardWP s = true
                            · rw [if_pos hg13] at h
                              exact absurd h (by decide)
                            · rw [if_neg hg13] at h
                              by_cases hg14 : guardWonly s = true
                              · rw [if_pos hg14] at h
                                exact absurd h (by decide)
                              · rw [if_neg hg14] at h
                                by_cases hg15 : guardIW s = true
                                · rw [if_pos hg15] at h
                                  exact absurd h (by decide)
                                · rw [if_neg hg15] at h
                                  by_cases hg16 : guardPB s = true
                                  · rw [if_pos hg16] at h
                                    exact absurd h (by decide)
                                  · rw [if_neg hg16] at h
                                    by_cases hg17 : guardSB s = true
                                    · rw [if_pos hg17] at h
                                      exact absurd h (by decide)
                                    · rw [if_neg hg17] at h
                                      by_cases hg18 : guardE s = true
                                      · rw [if_pos hg18] at h
                                        exact absurd h (by decide)
                                      · rw [if_neg hg18] at h
                                        by_cases hg19 : guardDI s = true
                                        · rw [if_pos hg19] at h
                                          exact absurd h (by decide)
                                        · rw [if_neg hg19] at h
                                          by_cases hg20 : guardPO s = true
                                          · rw [if_pos hg20] at h
                                            by_cases hin20 : (findPO s).any id = true
                                            · rw [if_pos hin20] at h
                                              have hcat : "Picked Off Base - Error".toList = "Out".toList := h
                                              exact absurd hcat (by decide)
                                            · rw [if_neg hin20] at h
                                              have hcat : "Picked Off Base".toList = "Out".toList := h
                                              exact absurd hcat (by decide)
                                          · rw [if_neg hg20] at h
                                            by_cases hg21 : guardPOCS s = true
                                            · rw [if_pos hg21] at h
                                              by_cases hin21 : (findPOCS s).any id = true
                                              · rw [if_pos hin21] at h
                                                have hcat : "Picked Off Base Caught Stealing - Error".toList = "Out".toList := h
                                                exact absurd hcat (by decide)
                                              · rw [if_neg hin21] at h
                                                have hcat : "Picked Off Base Caught Stealing".toList = "Out".toList := h
                                                exact absurd hcat (by decide)
                                            · rw [if_neg hg21] at h
                                              by_cases hg22 : guardBK s = true
                                              · rw [if_pos hg22] at h
                                                exact absurd h (by decide)
                                              · rw [if_neg hg22] at h
                                                by_cases hg23 : guardOA s = true
                                                · rw [if_pos hg23] at h
                                                  exact absurd h (by decide)
                                                · rw [if_neg hg23] at h
                                                  by_cases hg24 : guardFLE s = true
                                                  · rw [if_pos hg24] at h
                                                    exact absurd h (by decide)
                                                  · rw [if_neg hg24] at h
                                                    exact absurd h (by decide)

/-- Reassembling `derivePlay` from successful stages. -/
theorem derivePlay_ok_fields {play : Str} {ps : PlaySplit} {sstrs : List Str}
    {bd fd : Str} {m : List (Char × Char)}
    (hps : _playSplitter play = .ok ps)
    (hss : _subevent_splitter ps.event = .ok sstrs)
    (hbd : basicPlayDesc (sstrs.map _subeventParser) = .ok bd)
    (hfd : fullPlayDesc (sstrs.map _subeventParser) = .ok fd)
    (hm : playerAdvances ps (sstrs.map _subeventParser) = .ok m) :
    derivePlay play =
      .ok ⟨bd, fd, playersOut ps (sstrs.map _subeventParser),
        (playersOut ps (sstrs.map _subeventParser)).length, m, runsScored m⟩ := by
  simp only [derivePlay, hps, hss, hbd, hfd, hm]

/-- C5 (amended).  A play that derives successfully, whose event splits
into exactly two sub-events, both classified `Out` on distinct bases,
and which has no advances clause, is a Double Play with two outs.
(Without distinctness the set union collapses the outs — see the
counterexample — and advance tokens can exempt them.) -/
theorem two_distinct_outs_give_double_play
    (play : Str) (d : DerivedPlay) (ps : PlaySplit) (s1 s2 : Str)
    (hd : derivePlay play = .ok d)
    (hps : _playSplitter play = .ok ps)
    (hss : _subevent_splitter ps.event = .ok [s1, s2])
    (hadv : ps.advs = [])
    (h1 : (_subeventParser s1).basicPlay = "Out".toList)
    (h2 : (_subeventParser s2).basicPlay = "Out".toList)
    (hne : (_subeventParser s1).playersOut ≠ (_subeventParser s2).playersOut) :
    d.basicPlayDesc = "Double Play".toList ∧ d.outsOnPlay = 2 := by
  obtain ⟨b1, hb1⟩ := out_singleton s1 h1
  obtain ⟨b2, hb2⟩ := out_singleton s2 h2
  rw [hb1, hb2] at hne
  have hbne : ¬ ([b1] : Str) = [b2] := by
    intro e
    exact hne (by rw [e])
  have hmap : [s1, s2].map _subeventParser =
      [⟨"Out".toList, [[b1]], []⟩, ⟨"Out".toList, [[b2]], []⟩] := by
    simp [hb1, hb2]
  have hbpd : basicPlayDesc
      [(⟨"Out".toList, [[b1]], []⟩ : Subevent), ⟨"Out".toList, [[b2]], []⟩]
      = .ok "Double Play".toList := by
    simp only [basicPlayDesc]
    norm_num [List.countP_cons, List.countP_nil]
  have hfpd : fullPlayDesc
      [(⟨"Out".toList, [[b1]], []⟩ : Subevent), ⟨"Out".toList, [[b2]], []⟩]
      = .ok "Double Play".toList := by
    simp only [fullPlayDesc]
    norm_num [List.countP_cons, List.countP_nil]
  have hpo : playersOut ps
      [⟨"Out".toList, [[b1]], []⟩, ⟨"Out".toList, [[b2]], []⟩]
      = [[b1], [b2]] := by
    unfold playersOut
    rw [hadv]
    simp [List.dedup_cons_of_not_mem, hbne]
  have hpadv : playerAdvances ps
      [⟨"Out".toList, [[b1]], []⟩, ⟨"Out".toList, [[b2]], []⟩]
      = .ok [] := by
    unfold playerAdvances
    rw [hadv]
    rfl
  have hbd : basicPlayDesc ([s1, s2].map _subeventParser)
      = .ok "Double Play".toList := by
    rw [hmap]
    exact hbpd
  have hfd : fullPlayDesc ([s1, s2].map _subeventParser)
      = .ok "Double Play".toList := by
    rw [hmap]
    exact hfpd
  have hpadv2 : playerAdvances ps ([s1, s2].map _subeventParser) = .ok [] := by
    rw [hmap]
    exact hpadv
  have hd' := derivePlay_ok_fields hps hss hbd hfd hpadv2
  rw [hd'] at hd
  simp only [Except.ok.injEq] at hd
  subst hd
  refine ⟨rfl, ?_⟩
  show (playersOut ps ([s1, s2].map _subeventParser)).length = 2
  rw [hmap, hpo]
  rfl

/-- Witness for C5 at `46(1)63`: two outs at distinct bases. -/
theorem two_distinct_outs_give_double_play_witness :
    derivePlay "46(1)63".toList =
      .ok ⟨"Double Play".toList, "Double Play".toList, [['1'], ['B']], 2, [], 0⟩
    ∧ (⟨"Double Play".toList, "Double Play".toList, [['1'], ['B']], 2, [], 0⟩ :
        DerivedPlay).basicPlayDesc = "Double Play".toList
    ∧ (⟨"Double Play".toList, "Double Play".toList, [['1'], ['B']], 2, [], 0⟩ :
        DerivedPlay).outsOnPlay = 2 := by
  refine ⟨by decide, ?_⟩
  have h := two_distinct_outs_give_double_play "46(1)63".toList
    ⟨"Double Play".toList, "Double Play".toList, [['1'], ['B']], 2, [], 0⟩
    ⟨"46(1)63".toList, [], []⟩ "46(1)".toList "63".toList
    (by decide) (by decide) (by decide) rfl (by decide) (by decide) (by decide)
  exact h

/-- Inverting a successful `derivePlay`: the stages it ran and how the
fields of the result were produced. -/
theorem derivePlay_ok_inv (play : Str) (d : DerivedPlay)
    (hd : derivePlay play = .ok d) :
    ∃ ps sstrs m,
      _playSplitter play = .ok ps
      ∧ _subevent_splitter ps.event = .ok sstrs
      ∧ playerAdvances ps (sstrs.map _subeventParser) = .ok m
      ∧ d.playersOut = playersOut ps (sstrs.map _subeventParser)
      ∧ d.outsOnPlay = (playersOut ps (sstrs.map _subeventParser)).length
      ∧ d.playerAdvances = m
      ∧ d.runsScored = runsScored m := by
  unfold derivePlay at hd
  split at hd
  · cases hd
  rename_i ps hps
  split at hd
  · cases hd
  rename_i sstrs hss
  simp only [] at hd
  split at hd
  · cases hd
  rename_i bd hbd
  split at hd
  · cases hd
  rename_i fd hfd
  split at hd
  · cases hd
  rename_i m hm
  simp only [Except.ok.injEq] at hd
  subst hd
  exact ⟨ps, sstrs, m, hps, hss, hm, rfl, rfl, rfl, rfl⟩

theorem playersOut_nodup (ps : PlaySplit) (subs : List Subevent) :
    (playersOut ps subs).Nodup := by
  unfold playersOut
  exact (List.nodup_dedup _).filter _

theorem dictUpd_keys (m : List (Char × Char)) (k v : Char) :
    (dictUpd m k v).map Prod.fst =
      if k ∈ m.map Prod.fst then m.map Prod.fst
      else m.map Prod.fst ++ [k] := by
  induction m with
  | nil => simp [dictUpd]
  | cons p rest ih =>
    obtain ⟨a, b⟩ := p
    by_cases hak : a = k
    · subst hak
      simp [dictUpd]
    · by_cases hmem : k ∈ rest.map Prod.fst <;>
        simp [dictUpd, hak, ih, hmem, Ne.symm hak]

theorem keys_nodup_foldl (f g : Str → Char) :
    ∀ (entries : List Str) (m : List (Char × Char)),
      (m.map Prod.fst).Nodup →
      ((entries.foldl (fun acc i => dictUpd acc (f i) (g i)) m).map
        Prod.fst).Nodup := by
  intro entries
  induction entries with
  | nil => intro m h; simpa using h
  | cons i rest ih =>
    intro m h
    simp only [List.foldl_cons]
    apply ih
    rw [dictUpd_keys]
    by_cases hmem : f i ∈ m.map Prod.fst
    · simpa [hmem] using h
    · simp [hmem, List.nodup_append, h]

theorem runsScored_eq_filter (m : List (Char × Char)) :
    runsScored m = (m.filter (fun e => e.2 = 'H')).length := by
  induction m with
  | nil => rfl
  | cons p rest ih =>
    obtain ⟨a, b⟩ := p
    by_cases hb : b = 'H' <;>
      simp [runsScored, List.countP_cons, List.filter_cons, hb] <;>
      simpa [runsScored] using ih

/-- The keys of a successful advance map are distinct. -/
theorem playerAdvances_keys_nodup (ps : PlaySplit) (subs : List Subevent)
    (m : List (Char × Char)) (hm : playerAdvances ps subs = .ok m) :
    (m.map Prod.fst).Nodup := by
  unfold playerAdvances at hm
  simp only [] at hm
  split_ifs at hm
  simp only [Except.ok.injEq] at hm
  subst hm
  exact keys_nodup_foldl (fun i => i.headD ' ')
    (fun i => (i.drop 2).headD ' ') _ [] (by simp)

/-- C8.  For every successfully derived play the players-out list has
no duplicates, `outsOnPlay` is the cardinality of that set, the advance
map has distinct keys, and `runsScored` counts exactly the advance
entries whose destination is `H`. -/
theorem derived_play_invariants (play : Str) (d : DerivedPlay)
    (hd : derivePlay play = .ok d) :
    d.playersOut.Nodup
    ∧ d.outsOnPlay = d.playersOut.toFinset.card
    ∧ (d.playerAdvances.map Prod.fst).Nodup
    ∧ d.runsScored = (d.playerAdvances.filter (fun e => e.2 = 'H')).length := by
  obtain ⟨ps, sstrs, m, hps, hss, hm, hdp, hdo, hda, hdr⟩ :=
    derivePlay_ok_inv play d hd
  have hnd := playersOut_nodup ps (sstrs.map _subeventParser)
  refine ⟨?_, ?_, ?_, ?_⟩
  · rw [hdp]; exact hnd
  · rw [hdo, hdp]
    exact (List.toFinset_card_of_nodup hnd).symm
  · rw [hda]
    exact playerAdvances_keys_nodup ps (sstrs.map _subeventParser) m hm
  · rw [hdr, hda]
    exact runsScored_eq_filter m

/-- Witness for C8 at `S9.2-H` (a single with an explicit run). -/
theorem derived_play_invariants_witness :
    derivePlay "S9.2-H".toList =
      .ok ⟨"Hit - Single".toList, "Hit - Single".toList, [], 0,
        [('2', 'H'), ('B', '1')], 1⟩
    ∧ (([] : List Str).Nodup
       ∧ 0 = ([] : List Str).toFinset.card
       ∧ ([(('2' : Char), ('H' : Char)), ('B', '1')].map Prod.fst).Nodup
       ∧ 1 = ([(('2' : Char), ('H' : Char)), ('B', '1')].filter
              (fun e => e.2 = 'H')).length) :=
  ⟨by decide,
   derived_play_invariants "S9.2-H".toList
     ⟨"Hit - Single".toList, "Hit - Single".toList, [], 0,
       [('2', 'H'), ('B', '1')], 1⟩ (by decide)⟩

/-- Every implicit advance the classifier produces is one of the four
batter advances `B-1`, `B-2`, `B-3`, `B-H`. -/
theorem implicit_shape (s : Str) :
    ∀ a ∈ (_subeventParser s).implicitAdvances,
      a = "B-1".toList ∨ a = "B-2".toList ∨ a = "B-3".toList
        ∨ a = "B-H".toList := by
  unfold _subeventParser
  split
  · intro a ha
    exact absurd ha (List.not_mem_nil a)
  ·
    by_cases hg1 : matchOutError s = true
    · rw [if_pos hg1]
      decide
    · rw [if_neg hg1]
      by_cases hg2 : guardFC s = true
      · rw [if_pos hg2]
        decide
      · rw [if_neg hg2]
        by_cases hg3 : guardConly s = true
        · rw [if_pos hg3]
          decide
        · rw [if_neg hg3]
          by_cases hg4 : guardNP s = true
          · rw [if_pos hg4]
            decide
          · rw [if_neg hg4]
            by_cases hg5 : guardK s = true
            · rw [if_pos hg5]
              decide
            · rw [if_neg hg5]
              by_cases hg6 : guardHnotP s = true
              · rw [if_pos hg6]
                decide
              · rw [if_neg hg6]
                by_cases hg7 : guardHP s = true
                · rw [if_pos hg7]
                  decide
                · rw [if_neg hg7]
                  by_cases hg8 : guardS s = true
                  · rw [if_pos hg8]
                    decide
                  · rw [if_neg hg8]
                    by_cases hg9 : guardD s = true
                    · rw [if_pos hg9]
                      decide
                    · rw [if_neg hg9]
                      by_cases hg10 : guardDGR s = true
                      · rw [if_pos hg10]
                        decide
                      · rw [if_neg hg10]
                        by_cases hg11 : guardT s = true
                        · rw [if_pos hg11]
                          decide
                        · rw [if_neg hg11]
                          by_cases hg12 : guardCS s = true
                          · rw [if_pos hg12]
                            intro a ha
                            exact absurd ha (List.not_mem_nil a)
                          · rw [if_neg hg12]
                            by_cases hg13 : guardWP s = true
                            · rw [if_pos hg13]
                              decide
                            · rw [if_neg hg13]
                              by_cases hg14 : guardWonly s = true
                              · rw [if_pos hg14]
                                decide
                              · rw [if_neg hg14]
                                by_cases hg15 : guardIW s = true
                                · rw [if_pos hg15]
                                  decide
                                · rw [if_neg hg15]
                                  by_cases hg16 : guardPB s = true
                                  · rw [if_pos hg16]
                                    decide
                                  · rw [if_neg hg16]
                                    by_cases hg17 : guardSB s = true
                                    · rw [if_pos hg17]
                                      decide
                                    · rw [if_neg hg17]
                                      by_cases hg18 : guardE s = true
                                      · rw [if_pos hg18]
                                        decide
                                      · rw [if_neg hg18]
                                        by_cases hg19 : guardDI s = true
                                        · rw [if_pos hg19]
                                          decide
                                        · rw [if_neg hg19]
                                          by_cases hg20 : guardPO s = true
                                          · rw [if_pos hg20]
                                            intro a ha
                                            exact absurd ha (List.not_mem_nil a)
                                          · rw [if_neg hg20]
                                            by_cases hg21 : guardPOCS s = true
                                            · rw [if_pos hg21]
                                              intro a ha
                                              exact absurd ha (List.not_mem_nil a)
                                            · rw [if_neg hg21]
                                              by_cases hg22 : guardBK s = true
                                              · rw [if_pos hg22]
                                                decide
                                              · rw [if_neg hg22]
                                                by_cases hg23 : guardOA s = true
                                                · rw [if_pos hg23]
                                                  decide
                                                · rw [if_neg hg23]
                                                  by_cases hg24 : guardFLE s = true
                                                  · rw [if_pos hg24]
                                                    decide
                                                  · rw [if_neg hg24]
                                                    decide

theorem mem_dictUpd :
    ∀ (m : List (Char × Char)) {e : Char × Char} {k v : Char},
      e ∈ dictUpd m k v → e ∈ m ∨ e = (k, v) := by
  intro m
  induction m with
  | nil =>
    intro e k v h
    simpa [dictUpd] using h
  | cons p rest ih =>
    intro e k v h
    obtain ⟨a, b⟩ := p
    by_cases hak : a = k
    · subst hak
      simp only [dictUpd, if_true, eq_self_iff_true, List.mem_cons] at h
      rcases h with h | h
      · exact Or.inr h
      · exact Or.inl (List.mem_cons_of_mem _ h)
    · simp only [dictUpd, if_neg hak, List.mem_cons] at h
      rcases h with h | h
      · exact Or.inl (by simp [h])
      · rcases ih h with h' | h'
        · exact Or.inl (List.mem_cons_of_mem _ h')
        · exact Or.inr h'

theorem mem_foldl_dictUpd (f g : Str → Char) :
    ∀ (entries : List Str) (m0 : List (Char × Char)) (e : Char × Char),
      e ∈ entries.foldl (fun acc i => dictUpd acc (f i) (g i)) m0 →
      e ∈ m0 ∨ ∃ i ∈ entries, e = (f i, g i) := by
  intro entries
  induction entries with
  | nil => intro m0 e h; exact Or.inl (by simpa using h)
  | cons i rest ih =>
    intro m0 e h
    simp only [List.foldl_cons] at h
    rcases ih _ e h with h' | ⟨j, hj, hej⟩
    · rcases mem_dictUpd _ h' with h'' | h''
      · exact Or.inl h''
      · exact Or.inr ⟨i, by simp, h''⟩
    · exact Or.inr ⟨j, by simp [hj], hej⟩

/-- The tokens `playerAdvances` keeps (`<b>X<d>...E` or `<b>-<d>`) have a
base from `[1-3B]` in first position and a destination from `[1-3H]` in
third position. -/
theorem advTok_fields {j : Str}
    (h : advPatXdE j = true ∨ advPatDashD j = true) :
    ∃ a x b, j.take 3 = [a, x, b] ∧ isBase13B a = true ∧ isDest13H b = true := by
  cases j with
  | nil => simp [advPatXdE, advPatDashD] at h
  | cons a t =>
    cases t with
    | nil => simp [advPatXdE, advPatDashD] at h
    | cons x t2 =>
      cases t2 with
      | nil => simp [advPatXdE, advPatDashD] at h
      | cons b t3 =>
        refine ⟨a, x, b, by simp, ?_, ?_⟩
        · rcases h with h | h <;>
            simp only [advPatXdE, advPatDashD, decide_eq_true_eq] at h <;>
            exact h.1
        · rcases h with h | h <;>
            simp only [advPatXdE, advPatDashD, decide_eq_true_eq] at h
          · exact h.2.2.1
          · exact h.2.2

/-- C10.  However malformed the play string, every entry of a
successfully produced advance map has its key among the base codes
`B,1,2,3` and its value among the destinations `1,2,3,H`. -/
theorem advance_map_within_base_codes (ps : PlaySplit) (ss : List Str)
    (m : List (Char × Char))
    (hm : playerAdvances ps (ss.map _subeventParser) = .ok m)
    (e : Char × Char) (he : e ∈ m) :
    (e.1 = 'B' ∨ e.1 = '1' ∨ e.1 = '2' ∨ e.1 = '3')
    ∧ (e.2 = '1' ∨ e.2 = '2' ∨ e.2 = '3' ∨ e.2 = 'H') := by
  unfold playerAdvances at hm
  simp only [] at hm
  split_ifs at hm
  simp only [Except.ok.injEq] at hm
  subst hm
  rcases mem_foldl_dictUpd _ _ _ _ e he with h0 | ⟨i, hi, hei⟩
  · simp at h0
  · have hi' : i ∈ (List.map (List.take 3)
        (List.filter (fun i => advPatXdE i ∨ advPatDashD i) ps.advs))
        ∨ i ∈ (List.map Subevent.implicitAdvances
            (ss.map _subeventParser)).flatten := by
      simp only [List.mem_filter, List.mem_dedup, List.mem_append] at hi
      exact hi.1
    subst hei
    rcases hi' with hA | hI
    · simp only [List.mem_map, List.mem_filter, decide_eq_true_eq] at hA
      obtain ⟨j, ⟨hj, hcond⟩, hij⟩ := hA
      obtain ⟨a, x, b, htake, hba, hbd⟩ := advTok_fields hcond
      rw [← hij, htake]
      simp only [isBase13B, decide_eq_true_eq] at hba
      simp only [isDest13H, decide_eq_true_eq] at hbd
      constructor
      · show (a = 'B' ∨ a = '1' ∨ a = '2' ∨ a = '3')
        tauto
      · show (b = '1' ∨ b = '2' ∨ b = '3' ∨ b = 'H')
        tauto
    · simp only [List.mem_flatten, List.mem_map] at hI
      obtain ⟨L, ⟨u, ⟨s', hs', rfl⟩, rfl⟩, hiL⟩ := hI
      rcases implicit_shape s' i hiL with rfl | rfl | rfl | rfl <;> decide

/-- Witness for C10 at the map derived from `S9` with advance `2-H`. -/
theorem advance_map_within_base_codes_witness :
    playerAdvances ⟨"S9".toList, [], ["2-H".toList]⟩
      (["S9".toList].map _subeventParser) = .ok [('2', 'H'), ('B', '1')]
    ∧ ((('2' : Char), ('H' : Char)).1 = 'B' ∨ ('2', 'H').1 = '1'
        ∨ (('2' : Char), ('H' : Char)).1 = '2' ∨ ('2', 'H').1 = '3')
    ∧ ((('2' : Char), ('H' : Char)).2 = '1' ∨ ('2', 'H').2 = '2'
        ∨ (('2' : Char), ('H' : Char)).2 = '3' ∨ ('2', 'H').2 = 'H') :=
  ⟨by decide,
   advance_map_within_base_codes ⟨"S9".toList, [], ["2-H".toList]⟩
     ["S9".toList] [('2', 'H'), ('B', '1')] (by decide) ('2', 'H') (by decide)⟩

end Retrosheet
